import Mathlib

/-!
Verification of the `pkg/matcher/macaddr` package (MAC-address set matcher
with hot-reload helpers).

Go strings and byte slices are modelled as `List Nat` (one entry per byte);
a `net.HardwareAddr` is likewise a `List Nat`.  `net.ParseMAC` from the Go
standard library is translated byte-for-byte below (`parseMAC`), including
the colon/hyphen two-digit-group format and the dot four-digit-group format,
and the accepted output lengths 6 (EUI-48), 8 (EUI-64) and 20 (InfiniBand).

Errors, which Go represents as wrapped `error` values, are modelled by the
inductive `MacErr`, whose constructors record exactly the data Go's
`fmt.Errorf` wrappers record (the offending pattern, the byte length, the
1-based line number, the provider tag).
-/

/-- Byte value of the characters used by the parser. -/
def hexVal (b : Nat) : Option Nat :=
  if 48 ≤ b ∧ b ≤ 57 then some (b - 48)
  else if 97 ≤ b ∧ b ≤ 102 then some (b - 87)
  else if 65 ≤ b ∧ b ≤ 70 then some (b - 55)
  else none

/-- Two hex digits to one byte (Go `net.xtoi` on a 2-byte slice). -/
def hexPair (b0 b1 : Nat) : Option Nat :=
  match hexVal b0, hexVal b1 with
  | some h0, some h1 => some (16 * h0 + h1)
  | _, _ => none

/-- Go `net.xtoi2 s e`: parses the first two bytes of `s` as hex, and when
`s` is longer than two bytes additionally requires the third byte to be the
expected delimiter `e`. -/
def xtoi2 : List Nat → Nat → Option Nat
  | [b0, b1], _ => hexPair b0 b1
  | b0 :: b1 :: b2 :: _, e => if b2 = e then hexPair b0 b1 else none
  | _, _ => none

/-- The group loop of Go `net.ParseMAC` for the colon/hyphen format:
`k` groups remain, the next group starts at byte offset `x`, `e` is the
delimiter byte (`:` or `-`). -/
def parseGroups (s : List Nat) (e : Nat) : Nat → Nat → Option (List Nat)
  | 0, _ => some []
  | k + 1, x =>
    match xtoi2 (s.drop x) e, parseGroups s e k (x + 3) with
    | some b, some rest => some (b :: rest)
    | _, _ => none

/-- The group loop of Go `net.ParseMAC` for the dot format: `k` pairs of
bytes remain, the next four-digit group starts at byte offset `x`. -/
def parseDotGroups (s : List Nat) : Nat → Nat → Option (List Nat)
  | 0, _ => some []
  | k + 1, x =>
    match xtoi2 ((s.drop x).take 2) 0, xtoi2 (s.drop (x + 2)) 46,
        parseDotGroups s k (x + 5) with
    | some b0, some b1, some rest => some (b0 :: b1 :: rest)
    | _, _, _ => none

/-- Go `net.ParseMAC`.  Byte 58 is `:`, 45 is `-`, 46 is `.`.  Returns the
parsed hardware address (length 6, 8 or 20) or `none` on any format error. -/
def parseMAC (s : List Nat) : Option (List Nat) :=
  if s.length < 14 then none
  else if s.get? 2 = some 58 ∨ s.get? 2 = some 45 then
    if (s.length + 1) % 3 ≠ 0 then none
    else
      let n := (s.length + 1) / 3
      if n = 6 ∨ n = 8 ∨ n = 20 then
        parseGroups s ((s.get? 2).getD 0) n 0
      else none
  else if s.get? 4 = some 46 then
    if (s.length + 1) % 5 ≠ 0 then none
    else
      let n := 2 * ((s.length + 1) / 5)
      if n = 6 ∨ n = 8 ∨ n = 20 then
        parseDotGroups s (n / 2) 0
      else none
  else none

/-- Error values produced by the package, mirroring Go's wrapped errors. -/
inductive MacErr where
  /-- Go `fmt.Errorf("invalid MAC address %s: %w", pattern, err)` in `Matcher.Add`. -/
  | invalidFormat (pattern : List Nat) : MacErr
  /-- Go `fmt.Errorf("MAC address must be 6 bytes, got %d", len)` in `Matcher.Add`. -/
  | wrongLength (n : Nat) : MacErr
  /-- Go `fmt.Errorf("failed to load data %s: %w", s, err)` in `BatchLoad` and
  `BatchLoadMacProvider`. -/
  | loadErr (s : List Nat) (e : MacErr) : MacErr
  /-- Go `fmt.Errorf("line %d: %w", lineCounter, err)` in `LoadFromTextReader`. -/
  | lineErr (n : Nat) (e : MacErr) : MacErr
  /-- Go `fmt.Errorf("cannot find provider %s", providerTag)` in `BatchLoadMacProvider`. -/
  | providerNotFound (tag : List Nat) : MacErr
  /-- Go `fmt.Errorf("failed to load data from provider %s, %w", providerTag, err)`
  in `BatchLoadMacProvider`. -/
  | providerLoadErr (tag : List Nat) (e : MacErr) : MacErr
  /-- Go `bufio.ErrTooLong`, returned by `scanner.Err()` when one line does
  not fit the scanner's 64 KiB buffer, and returned unwrapped by
  `LoadFromTextReader` after its loop ends. -/
  | scanTooLong : MacErr
  deriving DecidableEq, Repr

/-- Go `macaddr.Matcher`: a hash set of 6-byte keys.  The Go map
`map[[6]byte]struct{}` is modelled as a duplicate-free list of keys; the
6-byte array key obtained by `copy(key[:], mac)` from a 6-byte slice is the
slice itself, so keys are `List Nat` values of length 6. -/
structure Matcher where
  macs : List (List Nat)
  deriving DecidableEq, Repr

/-- Go `NewMatcher`. -/
def NewMatcher : Matcher := ⟨[]⟩

/-- Go `Matcher.Match`: false unless the input is exactly 6 bytes, otherwise
a key lookup. -/
def Matcher.Match (m : Matcher) (mac : List Nat) : Bool :=
  if mac.length = 6 then m.macs.contains mac else false

/-- Go `Matcher.Len` (map size). -/
def Matcher.Len (m : Matcher) : Nat := m.macs.length

/-- Go `Matcher.Close`: always succeeds (`none` models a nil error). -/
def Matcher.Close (_ : Matcher) : Option MacErr := none

/-- Go `Matcher.add`: map insert (a no-op when the key is present, so that
`Len` matches the Go map size). -/
def Matcher.add (m : Matcher) (mac : List Nat) : Matcher :=
  if m.macs.contains mac then m else ⟨mac :: m.macs⟩

/-- Go `Matcher.Add` (the unused `v struct{}` argument is dropped): parse the
pattern, reject non-6-byte results, insert on success.  Returned as
(state after the call, error), mirroring in-place mutation. -/
def Matcher.Add (m : Matcher) (pattern : List Nat) : Matcher × Option MacErr :=
  match parseMAC pattern with
  | none => (m, some (.invalidFormat pattern))
  | some hw =>
    if hw.length ≠ 6 then (m, some (.wrongLength hw.length))
    else (m.add hw, none)

/-- Go `strings.TrimSpace` restricted to the ASCII whitespace bytes
(tab, LF, VT, FF, CR, space), which is exactly Go's `asciiSpace` fast path;
all inputs relevant here are ASCII. -/
def isSpace (b : Nat) : Bool :=
  b == 9 || b == 10 || b == 11 || b == 12 || b == 13 || b == 32

/-- Go `strings.TrimSpace` (ASCII). -/
def trimSpace (s : List Nat) : List Nat :=
  ((s.dropWhile isSpace).reverse.dropWhile isSpace).reverse

/-- Go `strings.HasPrefix`. -/
def startsWith (pre s : List Nat) : Bool := s.take pre.length == pre

/-- Go `macaddr.Load`: trim, skip empty, otherwise `Add`. -/
def Load (m : Matcher) (s : List Nat) : Matcher × Option MacErr :=
  let t := trimSpace s
  if t.length = 0 then (m, none) else m.Add t

/-- Go `macaddr.BatchLoad`: `Load` each entry, stopping at the first error,
which is wrapped with the offending entry. -/
def BatchLoad (m : Matcher) : List (List Nat) → Matcher × Option MacErr
  | [] => (m, none)
  | s :: rest =>
    match Load m s with
    | (m', none) => BatchLoad m' rest
    | (m', some e) => (m', some (.loadErr s e))

/-- Go `bufio.dropCR`: drop one trailing carriage return (byte 13). -/
def dropCR (l : List Nat) : List Nat :=
  if l.getLast? = some 13 then l.dropLast else l

/-- Go `bufio.MaxScanTokenSize` (64 * 1024), the buffer limit of a scanner
created by `bufio.NewScanner`. -/
def maxScanTokenSize : Nat := 65536

/-- The token loop of `bufio.Scanner` with `bufio.ScanLines` over an
in-memory reader: split at each LF (byte 10), dropping the LF and one
trailing CR per token; leftover bytes at EOF form a final token, and nothing
is emitted when no bytes are left.  A segment (the bytes of one line before
its LF, or before EOF) of `maxScanTokenSize` or more bytes cannot fit the
scanner's buffer together with a terminator, so `Scan` returns false there
with no further token and `Err()` reports `bufio.ErrTooLong` — the `Bool` of
the result is that flag.  `cur` accumulates the current segment. -/
def scanLinesAux (cur : List Nat) : List Nat → List (List Nat) × Bool
  | [] =>
    if maxScanTokenSize ≤ cur.length then ([], true)
    else if cur = [] then ([], false)
    else ([dropCR cur], false)
  | 10 :: rest =>
    if maxScanTokenSize ≤ cur.length then ([], true)
    else
      let p := scanLinesAux [] rest
      (dropCR cur :: p.1, p.2)
  | b :: rest => scanLinesAux (cur ++ [b]) rest

/-- Tokens yielded by the scanner over the whole input, paired with the
`bufio.ErrTooLong` flag `scanner.Err()` reports once the loop ends. -/
def scanLines (s : List Nat) : List (List Nat) × Bool := scanLinesAux [] s

/-- The lines the scanner yields before any token-size failure. -/
def splitLines (s : List Nat) : List (List Nat) := (scanLines s).1

/-- The scan loop of Go `LoadFromTextReader`: `c` physical lines consumed so
far, the counter is incremented before each line is handled; trimmed lines
that are empty or start with `#` (byte 35) are skipped; other lines go
through `Load`, an error being wrapped with the 1-based line number. -/
def loadLines (m : Matcher) (c : Nat) : List (List Nat) → Except MacErr Matcher
  | [] => .ok m
  | l :: rest =>
    let s := trimSpace l
    if s.length = 0 || startsWith [35] s then loadLines m (c + 1) rest
    else
      match Load m s with
      | (m', none) => loadLines m' (c + 1) rest
      | (_, some e) => .error (.lineErr (c + 1) e)

/-- Go `LoadFromTextReader` over an in-memory byte reader: each scanned
line is loaded in order, a malformed line returning its line-numbered error
at once (before the scanner would reach any later over-long segment); when
the loop ends, `scanner.Err()` is returned — `bufio.ErrTooLong` when a
segment overflowed the scanner's buffer, nil otherwise. -/
def LoadFromTextReader (m : Matcher) (input : List Nat) : Except MacErr Matcher :=
  match loadLines m 0 (splitLines input) with
  | .error e => .error e
  | .ok m' => if (scanLines input).2 = true then .error .scanTooLong else .ok m'

/-- Go `ParseTextMacFile`: build a fresh matcher from text bytes. -/
def ParseTextMacFile (input : List Nat) : Except MacErr Matcher :=
  LoadFromTextReader NewMatcher input

/-- Go `macaddr.DynamicMatcher`.  The `sync.RWMutex` only guards the read and
the swap of the reference `m`, so the sequential model is the pair of fields;
`m` is `none` until the first successful `Update`.  In this package the
stored value is always a `*Matcher` (produced by `ParseTextMacFile`), so the
inner `LocalMatcher` is modelled at that type, while `parserFunc` stays an
arbitrary function as in `NewDynamicMatcher`. -/
structure DynamicMatcher where
  parserFunc : List Nat → Except MacErr Matcher
  m : Option Matcher

/-- Go `NewDynamicMatcher`. -/
def NewDynamicMatcher (parserFunc : List Nat → Except MacErr Matcher) : DynamicMatcher :=
  ⟨parserFunc, none⟩

/-- Go `DynamicMatcher.Match`: false while no value is installed. -/
def DynamicMatcher.Match (d : DynamicMatcher) (mac : List Nat) : Bool :=
  match d.m with
  | none => false
  | some m => m.Match mac

/-- Go `DynamicMatcher.Len`: 0 while no value is installed. -/
def DynamicMatcher.Len (d : DynamicMatcher) : Nat :=
  match d.m with
  | none => 0
  | some m => m.Len

/-- Go `DynamicMatcher.Close`: nil error while no value is installed,
otherwise the inner matcher's `Close`. -/
def DynamicMatcher.Close (d : DynamicMatcher) : Option MacErr :=
  match d.m with
  | none => none
  | some m => m.Close

/-- Go `DynamicMatcher.Update`: run the parser; on failure return the error
with the state untouched, on success swap in the new value.  Returned as
(state after the call, error). -/
def DynamicMatcher.Update (d : DynamicMatcher) (b : List Nat) :
    DynamicMatcher × Option MacErr :=
  match d.parserFunc b with
  | .error e => (d, some e)
  | .ok m => ({ d with m := some m }, none)

/-- A sequence of `Update` calls applied in order (each call's state feeds
the next; errors are reported per call and do not stop the sequence). -/
def applyUpdates (d : DynamicMatcher) (bs : List (List Nat)) : DynamicMatcher :=
  bs.foldl (fun d b => (d.Update b).1) d


/-- A member of a `LocalMatcherGroup`.  The Go field `g []LocalMatcher`
holds interface values; in this package the members are the static
`*Matcher` and `*DynamicMatcher` values appended by
`BatchLoadMacProvider`. -/
inductive LMember where
  | staticM (m : Matcher) : LMember
  | dynM (d : DynamicMatcher) : LMember

/-- Dynamic dispatch of `Match` on a group member. -/
def LMember.lmMatch : LMember → List Nat → Bool
  | .staticM m, mac => m.Match mac
  | .dynM d, mac => d.Match mac

/-- Dynamic dispatch of `Len` on a group member. -/
def LMember.lmLen : LMember → Nat
  | .staticM m => m.Len
  | .dynM d => d.Len

/-- State of listener registrations inside the external
`data_provider.DataManager`: the pairs (provider tag, listener id) currently
registered.  Listener ids number the `DynamicMatcher` values in order of
creation, standing in for Go's pointer identity. -/
abbrev RegState : Type := List (List Nat × Nat)

/-- A closer registered via `AppendCloser`.  The only closure the package
ever registers is `func() { provider.DeleteListener(dmMatcher) }`, so a
closer is modelled as that action's data. -/
inductive CloserOp where
  | deleteListener (tag : List Nat) (id : Nat) : CloserOp
  deriving DecidableEq, Repr

/-- Effect of one closer on the registration state: `DeleteListener`
removes that listener's registration from that provider (a no-op when it is
not registered). -/
def applyCloser : CloserOp → RegState → RegState
  | .deleteListener tag id, st =>
    st.filter (fun p => !(p.1 == tag && p.2 == id))

/-- Go `macaddr.LocalMatcherGroup`. -/
structure LocalMatcherGroup where
  g : List LMember
  closer : List CloserOp

/-- The scan of `LocalMatcherGroup.Match`: first match wins. -/
def matchList : List LMember → List Nat → Bool
  | [], _ => false
  | mm :: rest, mac => if mm.lmMatch mac then true else matchList rest mac

/-- Go `LocalMatcherGroup.Match`. -/
def LocalMatcherGroup.Match (mg : LocalMatcherGroup) (mac : List Nat) : Bool :=
  matchList mg.g mac

/-- Go `LocalMatcherGroup.Len`: sum of member lengths. -/
def LocalMatcherGroup.Len (mg : LocalMatcherGroup) : Nat :=
  mg.g.foldl (fun s mm => s + mm.lmLen) 0

/-- Go `LocalMatcherGroup.Append`. -/
def LocalMatcherGroup.Append (mg : LocalMatcherGroup) (nm : LMember) : LocalMatcherGroup :=
  { mg with g := mg.g ++ [nm] }

/-- Go `LocalMatcherGroup.AppendCloser`. -/
def LocalMatcherGroup.AppendCloser (mg : LocalMatcherGroup) (f : CloserOp) : LocalMatcherGroup :=
  { mg with closer := mg.closer ++ [f] }

/-- Go `LocalMatcherGroup.Close`: invoke every registered closer in order.
The result is the final registration state together with the trace of
invoked closers (each loop iteration appends the closer it invokes);
`Close` itself always returns a nil error. -/
def LocalMatcherGroup.closeRun (mg : LocalMatcherGroup) (st : RegState) :
    RegState × List CloserOp :=
  mg.closer.foldl (fun acc f => (applyCloser f acc.1, acc.2 ++ [f])) (st, [])

/-- Modelled from the spec: the external `data_provider.DataManager`
(package `pkg/data_provider` is not part of the given sources).  Per the
spec it is a registry of named byte-producing sources; each provider is
modelled by its tag and its current raw bytes. -/
structure DataManager where
  providers : List (List Nat × List Nat)

/-- Modelled from the spec: `DataManager.GetDataProvider` looks a provider
up by tag, returning its current bytes, or `none` when no source of that
name exists. -/
def DataManager.GetDataProvider (dm : DataManager) (tag : List Nat) : Option (List Nat) :=
  (dm.providers.find? (fun p => p.1 == tag)).map (·.2)

/-- Modelled from the spec: `DataProvider.LoadAndAddListener` registers the
listener and synchronously performs an initial load (the listener's `Update`
on the provider's current bytes).  The initial load is modelled as running
first, with registration only on its success; the claims settled below
depend only on the missing-provider failure mode, not on this ordering. -/
def LoadAndAddListener (tag : List Nat) (bytes : List Nat) (id : Nat)
    (d : DynamicMatcher) (st : RegState) :
    Except MacErr DynamicMatcher × RegState :=
  match d.Update bytes with
  | (_, some e) => (.error e, st)
  | (d', none) => (.ok d', (tag, id) :: st)

/-- Byte string of the literal `"provider:"`. -/
def providerKey : List Nat := [112, 114, 111, 118, 105, 100, 101, 114, 58]

/-- The entry loop of Go `BatchLoadMacProvider`.  `sm` is the shared static
matcher (appended to the group first, mutated by non-provider entries),
`dyns` the dynamic matchers appended so far, `cls` the closers appended so
far, `st` the external registration state, `nid` the next listener id.  On
any failure the Go code returns `nil, err` at once — no closer is run — so
the error results carry `st` (or the state reached so far) unchanged by any
cleanup. -/
def blmpAux (dm : DataManager) :
    List (List Nat) → Matcher → List DynamicMatcher → List CloserOp →
    RegState → Nat → (Except MacErr LocalMatcherGroup) × RegState
  | [], sm, dyns, cls, st, _ =>
    (.ok { g := .staticM sm :: dyns.map .dynM, closer := cls }, st)
  | s :: rest, sm, dyns, cls, st, nid =>
    if startsWith providerKey s then
      let tag := s.drop 9
      match dm.GetDataProvider tag with
      | none => (.error (.providerNotFound tag), st)
      | some bytes =>
        match LoadAndAddListener tag bytes nid (NewDynamicMatcher ParseTextMacFile) st with
        | (.error e, st') => (.error (.providerLoadErr tag e), st')
        | (.ok d', st') =>
          blmpAux dm rest sm (dyns ++ [d']) (cls ++ [.deleteListener tag nid]) st' (nid + 1)
    else
      match Load sm s with
      | (sm', none) => blmpAux dm rest sm' dyns cls st nid
      | (_, some e) => (.error (.loadErr s e), st)

/-- Go `BatchLoadMacProvider`, threaded through the external registration
state `st`: returns either the built group or the error, together with the
registration state after the call. -/
def BatchLoadMacProvider (e : List (List Nat)) (dm : DataManager) (st : RegState) :
    (Except MacErr LocalMatcherGroup) × RegState :=
  blmpAux dm e NewMatcher [] [] st 0

/-- True exactly on `Except.error` results. -/
def isErr {ε α : Type} : Except ε α → Bool
  | .error _ => true
  | .ok _ => false

/-! ### Concrete byte strings used by witnesses and counterexamples -/

/-- Bytes of `"00:11:22:33:44:55"`. -/
def goodLit : List Nat := [48, 48, 58, 49, 49, 58, 50, 50, 58, 51, 51, 58, 52, 52, 58, 53, 53]

/-- Bytes of `"AA:BB:CC:DD:EE:FF"`. -/
def upperLit : List Nat := [65, 65, 58, 66, 66, 58, 67, 67, 58, 68, 68, 58, 69, 69, 58, 70, 70]

/-- Bytes of `"aa:bb:cc:dd:ee:ff"`. -/
def lowerLit : List Nat := [97, 97, 58, 98, 98, 58, 99, 99, 58, 100, 100, 58, 101, 101, 58, 102, 102]

/-- Bytes of the EUI-64 literal `"01:23:45:67:89:ab:cd:ef"`. -/
def eui64Lit : List Nat :=
  [48, 49, 58, 50, 51, 58, 52, 53, 58, 54, 55, 58, 56, 57, 58, 97, 98, 58, 99, 100, 58, 101, 102]

/-- Bytes of the text batch `"# comment\n\n00:11:22:33:44:55\n"`. -/
def scenario1 : List Nat :=
  [35, 32, 99, 111, 109, 109, 101, 110, 116, 10, 10] ++ goodLit ++ [10]

/-- Bytes of the text batch `"00:11:22:33:44\n"`. -/
def scenario2 : List Nat := [48, 48, 58, 49, 49, 58, 50, 50, 58, 51, 51, 58, 52, 52, 10]

/-! ### C4: Matcher.Match length discipline -/

/-- C4: for every matcher state, `Match` returns false on any input whose
byte length is not exactly 6 (it never errors: its result type is `Bool`),
and on 6-byte inputs it returns true exactly when that value is a member of
the set. -/
theorem matcher_match_spec (m : Matcher) (mac : List Nat) :
    (mac.length ≠ 6 → m.Match mac = false) ∧
    (mac.length = 6 → (m.Match mac = true ↔ mac ∈ m.macs)) := by
  constructor
  · intro h
    simp [Matcher.Match, h]
  · intro h
    simp [Matcher.Match, h, List.elem_iff]

/-- Witness for C4 at a concrete one-element matcher and 6-byte input. -/
theorem matcher_match_spec_witness :
    ([0, 17, 34, 51, 68, 85] : List Nat).length = 6 ∧
    (Matcher.Match ⟨[[0, 17, 34, 51, 68, 85]]⟩ [0, 17, 34, 51, 68, 85] = true ↔
      [0, 17, 34, 51, 68, 85] ∈ Matcher.macs ⟨[[0, 17, 34, 51, 68, 85]]⟩) :=
  ⟨by decide,
    (matcher_match_spec ⟨[[0, 17, 34, 51, 68, 85]]⟩ [0, 17, 34, 51, 68, 85]).2 (by decide)⟩

/-! ### C7: Add rejects non-6-byte values and stores only 6-byte keys -/

/-- C7: `Matcher.Add` rejects (with an error, leaving the set unchanged)
every literal that does not parse and every literal that parses to an
address of byte length other than 6 (e.g. EUI-64); on success it inserts
exactly the parsed 6-byte value, so all stored members remain 6-byte. -/
theorem matcher_add_spec (m : Matcher) (s : List Nat) :
    ((∀ k ∈ m.macs, k.length = 6) → ∀ k ∈ (m.Add s).1.macs, k.length = 6) ∧
    (parseMAC s = none → m.Add s = (m, some (.invalidFormat s))) ∧
    (∀ a, parseMAC s = some a → a.length ≠ 6 →
      m.Add s = (m, some (.wrongLength a.length))) ∧
    (∀ a, parseMAC s = some a → a.length = 6 → m.Add s = (m.add a, none)) := by
  refine ⟨?_, ?_, ?_, ?_⟩
  · intro hall k hk
    unfold Matcher.Add at hk
    cases hp : parseMAC s with
    | none => rw [hp] at hk; exact hall k hk
    | some a =>
      rw [hp] at hk
      by_cases hl : a.length = 6
      · simp only [hl, ne_eq, not_true_eq_false, if_neg, ite_false] at hk
        unfold Matcher.add at hk
        by_cases hc : m.macs.contains a
        · rw [if_pos hc] at hk; exact hall k hk
        · rw [if_neg hc] at hk
          rcases List.mem_cons.mp hk with h | h
          · rw [h]; exact hl
          · exact hall k h
      · simp only [ne_eq, hl, not_false_eq_true, if_pos, ite_true] at hk
        exact hall k hk
  · intro hp
    unfold Matcher.Add
    rw [hp]
  · intro a hp hl
    unfold Matcher.Add
    rw [hp]
    simp [hl]
  · intro a hp hl
    unfold Matcher.Add
    rw [hp]
    simp [hl]

/-- Witness for C7: the EUI-64 literal `"01:23:45:67:89:ab:cd:ef"` parses to
8 bytes and is rejected, leaving a fresh matcher unchanged. -/
theorem matcher_add_spec_witness :
    parseMAC eui64Lit = some [1, 35, 69, 103, 137, 171, 205, 239] ∧
    ([1, 35, 69, 103, 137, 171, 205, 239] : List Nat).length ≠ 6 ∧
    NewMatcher.Add eui64Lit = (NewMatcher, some (.wrongLength 8)) :=
  ⟨by decide, by decide,
    (matcher_add_spec NewMatcher eui64Lit).2.2.1 [1, 35, 69, 103, 137, 171, 205, 239]
      (by decide) (by decide)⟩

/-! ### C8: group Match is the ordered OR of member Match -/

theorem matchList_eq_any (l : List LMember) (mac : List Nat) :
    matchList l mac = l.any (fun mm => mm.lmMatch mac) := by
  induction l with
  | nil => rfl
  | cons x rest ih =>
    unfold matchList
    by_cases h : x.lmMatch mac
    · simp [h]
    · simp only [Bool.not_eq_true] at h
      simp [h, ih]

/-- C8: a group's `Match` is the in-order scan of its members — equal to
`List.any` over the member list, true exactly when some member matches, and
on a nonempty list it is the short-circuit OR of the head's result with the
scan of the tail. -/
theorem localMatcherGroup_match_spec (mg : LocalMatcherGroup) (mac : List Nat) :
    mg.Match mac = mg.g.any (fun mm => mm.lmMatch mac) ∧
    (mg.Match mac = true ↔ ∃ mm ∈ mg.g, mm.lmMatch mac = true) ∧
    (∀ x rest, matchList (x :: rest) mac = (x.lmMatch mac || matchList rest mac)) := by
  refine ⟨matchList_eq_any mg.g mac, ?_, ?_⟩
  · rw [LocalMatcherGroup.Match, matchList_eq_any, List.any_eq_true]
  · intro x rest
    rw [matchList_eq_any, matchList_eq_any, List.any_cons]

/-! ### C9: Close runs every registered closer once, in order -/

theorem closeRun_foldl (cls : List CloserOp) (st : RegState) (tr : List CloserOp) :
    cls.foldl (fun acc f => (applyCloser f acc.1, acc.2 ++ [f])) (st, tr) =
      (cls.foldl (fun s f => applyCloser f s) st, tr ++ cls) := by
  induction cls generalizing st tr with
  | nil => simp
  | cons f rest ih => simp [List.foldl_cons, ih]

/-- C9: one `Close` call invokes exactly the registered closers, each once
and in registration order (the invocation trace is the closer list itself,
and appending a closer appends its invocation at the end of the trace);
every closer's effect is applied unconditionally — the final state is the
left fold of all closer effects, no closer being skipped on account of an
earlier one's outcome. -/
theorem localMatcherGroup_close_spec (mg : LocalMatcherGroup) (st : RegState) :
    (mg.closeRun st).2 = mg.closer ∧
    (∀ f, ((mg.AppendCloser f).closeRun st).2 = mg.closer ++ [f]) ∧
    (mg.closeRun st).1 = mg.closer.foldl (fun s f => applyCloser f s) st := by
  refine ⟨?_, ?_, ?_⟩
  · rw [LocalMatcherGroup.closeRun, closeRun_foldl]; simp
  · intro f
    rw [LocalMatcherGroup.AppendCloser, LocalMatcherGroup.closeRun]
    simp only
    rw [closeRun_foldl]
    simp
  · rw [LocalMatcherGroup.closeRun, closeRun_foldl]

/-! ### C10: whitespace-only entries are silently skipped -/

theorem trimSpace_all_space {s : List Nat} (h : ∀ b ∈ s, isSpace b = true) :
    trimSpace s = [] := by
  unfold trimSpace
  rw [List.dropWhile_eq_nil_iff.mpr h]
  simp

theorem load_ws {s : List Nat} (h : ∀ b ∈ s, isSpace b = true) (m : Matcher) :
    Load m s = (m, none) := by
  unfold Load
  rw [trimSpace_all_space h]
  simp

theorem ws_not_provider {s : List Nat} (h : ∀ b ∈ s, isSpace b = true) :
    startsWith providerKey s = false := by
  unfold startsWith
  rw [beq_eq_false_iff_ne]
  intro heq
  cases s with
  | nil => simp [providerKey] at heq
  | cons b t =>
    have hb : isSpace b = true := h b (List.mem_cons_self b t)
    have : b = 112 := by
      have := congrArg (fun l => l.head?) heq
      simpa [providerKey, List.take] using this
    rw [this] at hb
    simp [isSpace] at hb

theorem batchLoad_skip {s : List Nat} (h : ∀ b ∈ s, isSpace b = true)
    (ss1 ss2 : List (List Nat)) (m : Matcher) :
    BatchLoad m (ss1 ++ s :: ss2) = BatchLoad m (ss1 ++ ss2) := by
  induction ss1 generalizing m with
  | nil => simp [BatchLoad, load_ws h]
  | cons a ss1 ih =>
    simp only [List.cons_append, BatchLoad]
    cases hL : Load m a with
    | mk m' e? =>
      cases e? with
      | none => exact ih m'
      | some e => rfl

theorem blmpAux_skip {s : List Nat} (h : ∀ b ∈ s, isSpace b = true)
    (dm : DataManager) (e1 e2 : List (List Nat)) :
    ∀ sm dyns cls st nid,
      blmpAux dm (e1 ++ s :: e2) sm dyns cls st nid =
        blmpAux dm (e1 ++ e2) sm dyns cls st nid := by
  induction e1 with
  | nil =>
    intro sm dyns cls st nid
    simp only [List.nil_append, blmpAux, ws_not_provider h, Bool.false_eq_true, if_false,
      load_ws h sm]
  | cons a e1 ih =>
    intro sm dyns cls st nid
    by_cases hp : startsWith providerKey a
    · cases hgp : dm.GetDataProvider (a.drop 9) with
      | none => simp only [List.cons_append, blmpAux, hp, if_true, hgp]
      | some bytes =>
        cases hla : LoadAndAddListener (a.drop 9) bytes nid (NewDynamicMatcher ParseTextMacFile) st with
        | mk r st' =>
          cases r with
          | error e => simp only [List.cons_append, blmpAux, hp, if_true, hgp, hla]
          | ok d' =>
            simp only [List.cons_append, blmpAux, hp, if_true, hgp, hla]
            exact ih sm (dyns ++ [d']) (cls ++ [.deleteListener (a.drop 9) nid]) st' (nid + 1)
    · cases hLo : Load sm a with
      | mk sm' e? =>
        cases e? with
        | none =>
          simp only [List.cons_append, blmpAux, hp, Bool.false_eq_true, if_false, hLo]
          exact ih sm' dyns cls st nid
        | some e =>
          simp only [List.cons_append, blmpAux, hp, Bool.false_eq_true, if_false, hLo]

/-- C10: for every string consisting only of whitespace bytes (including the
empty string), `Load` succeeds and leaves the matcher untouched, and such an
entry anywhere in a descriptor list passed to `BatchLoad` or
`BatchLoadMacProvider` can be dropped without changing the result — it never
produces an error and never changes any matcher's membership or `Len`. -/
theorem load_whitespace_skip (s : List Nat) (h : ∀ b ∈ s, isSpace b = true) :
    (∀ m, Load m s = (m, none)) ∧
    (∀ m ss1 ss2, BatchLoad m (ss1 ++ s :: ss2) = BatchLoad m (ss1 ++ ss2)) ∧
    (∀ dm st e1 e2, BatchLoadMacProvider (e1 ++ s :: e2) dm st =
      BatchLoadMacProvider (e1 ++ e2) dm st) := by
  refine ⟨load_ws h, fun m ss1 ss2 => batchLoad_skip h ss1 ss2 m, ?_⟩
  intro dm st e1 e2
  unfold BatchLoadMacProvider
  exact blmpAux_skip h dm e1 e2 NewMatcher [] [] st 0

/-- Witness for C10 at the two-byte whitespace string `" \t"`, dropped from
a batch in front of a valid literal. -/
theorem load_whitespace_skip_witness :
    Load NewMatcher [32, 9] = (NewMatcher, none) ∧
    BatchLoad NewMatcher ([] ++ [32, 9] :: [goodLit]) = BatchLoad NewMatcher ([] ++ [goodLit]) := by
  have h := load_whitespace_skip [32, 9] (by decide)
  exact ⟨h.1 NewMatcher, h.2.1 NewMatcher [] [goodLit]⟩

/-! ### C5: a cell with no successful Update matches nothing -/

theorem applyUpdates_all_fail (pf : List Nat → Except MacErr Matcher) :
    ∀ bs : List (List Nat), (∀ b ∈ bs, isErr (pf b) = true) →
      applyUpdates (NewDynamicMatcher pf) bs = NewDynamicMatcher pf := by
  intro bs
  induction bs with
  | nil => intro _; rfl
  | cons b rest ih =>
    intro h
    have hb : isErr (pf b) = true := h b (List.mem_cons_self b rest)
    have hstep : ((NewDynamicMatcher pf).Update b).1 = NewDynamicMatcher pf := by
      unfold DynamicMatcher.Update
      have hsc : (NewDynamicMatcher pf).parserFunc = pf := rfl
      rw [hsc]
      cases hpb : pf b with
      | error e => rfl
      | ok m => rw [hpb] at hb; simp [isErr] at hb
    show applyUpdates ((NewDynamicMatcher pf).Update b).1 rest = NewDynamicMatcher pf
    rw [hstep]
    exact ih (fun x hx => h x (List.mem_cons_of_mem b hx))

/-- C5: after any sequence of `Update` calls that all failed (so no `Update`
has ever succeeded), a `DynamicMatcher` created by `NewDynamicMatcher`
matches no input, reports length 0, and closes successfully. -/
theorem dynamicMatcher_fresh_spec (pf : List Nat → Except MacErr Matcher)
    (bs : List (List Nat)) (h : ∀ b ∈ bs, isErr (pf b) = true) :
    (∀ mac, (applyUpdates (NewDynamicMatcher pf) bs).Match mac = false) ∧
    (applyUpdates (NewDynamicMatcher pf) bs).Len = 0 ∧
    (applyUpdates (NewDynamicMatcher pf) bs).Close = none := by
  rw [applyUpdates_all_fail pf bs h]
  exact ⟨fun mac => rfl, rfl, rfl⟩

/-- Witness for C5: the real parser `ParseTextMacFile` with one failed
update (malformed batch `scenario2`). -/
theorem dynamicMatcher_fresh_spec_witness :
    isErr (ParseTextMacFile scenario2) = true ∧
    (applyUpdates (NewDynamicMatcher ParseTextMacFile) [scenario2]).Len = 0 := by
  have h := dynamicMatcher_fresh_spec ParseTextMacFile [scenario2]
    (by intro b hb; rw [List.mem_singleton] at hb; rw [hb]; decide)
  exact ⟨by decide, h.2.1⟩

/-! ### C2: a failed Update leaves the previous snapshot untouched -/

/-- C2: whenever the cell's parser function fails on input bytes `b`,
`Update b` returns exactly that error with the cell state unchanged, so
every subsequent `Match` and `Len` result equals what it was before the
failed call — a previously installed snapshot is never dropped or
replaced. -/
theorem dynamicMatcher_update_fail_spec (d : DynamicMatcher) (b : List Nat)
    (e : MacErr) (h : d.parserFunc b = .error e) :
    d.Update b = (d, some e) ∧
    (∀ mac, ((d.Update b).1).Match mac = d.Match mac) ∧
    ((d.Update b).1).Len = d.Len := by
  have hu : d.Update b = (d, some e) := by
    unfold DynamicMatcher.Update
    rw [h]
  exact ⟨hu, fun mac => by rw [hu], by rw [hu]⟩

/-- The cell used by the C2 witness: `ParseTextMacFile` as parser, holding
the snapshot installed by a successful update on `scenario1`. -/
def snapCell : DynamicMatcher :=
  ((NewDynamicMatcher ParseTextMacFile).Update scenario1).1

/-- Witness for C2: on the cell holding the `scenario1` snapshot, an update
with the malformed `scenario2` returns the parse error, and the snapshot's
`Match`/`Len` results survive. -/
theorem dynamicMatcher_update_fail_spec_witness :
    snapCell.parserFunc scenario2 = .error (.lineErr 1 (.invalidFormat (trimSpace (dropCR scenario2).dropLast))) ∧
    snapCell.Update scenario2 =
      (snapCell, some (.lineErr 1 (.invalidFormat (trimSpace (dropCR scenario2).dropLast)))) ∧
    (snapCell.Update scenario2).1.Match [0, 17, 34, 51, 68, 85] = true := by
  have h9 : snapCell.parserFunc scenario2 =
      .error (.lineErr 1 (.invalidFormat (trimSpace (dropCR scenario2).dropLast))) := by
    rfl
  have h := dynamicMatcher_update_fail_spec snapCell scenario2
    (.lineErr 1 (.invalidFormat (trimSpace (dropCR scenario2).dropLast))) h9
  refine ⟨h9, h.1, ?_⟩
  rw [h.1]
  rfl

/-! ### C3: line-oriented text parsing with 1-based error line numbers -/

theorem add_snd_indep (m m' : Matcher) (s : List Nat) :
    (Matcher.Add m s).2 = (Matcher.Add m' s).2 := by
  unfold Matcher.Add
  cases parseMAC s with
  | none => rfl
  | some a =>
    by_cases hl : a.length = 6
    · simp [hl]
    · simp [hl]

theorem load_snd_indep (m m' : Matcher) (s : List Nat) :
    (Load m s).2 = (Load m' s).2 := by
  unfold Load
  by_cases h : (trimSpace s).length = 0
  · simp [h]
  · simp only [h, if_false]
    exact add_snd_indep m m' (trimSpace s)

/-- The 1-based index of the first line that is neither blank nor a comment
after trimming and whose content fails to load, or `none` when every line is
skipped or loads.  This is the characterization the claim states; the
theorem below relates it to `ParseTextMacFile`. -/
def firstBad : List (List Nat) → Option Nat
  | [] => none
  | l :: rest =>
    if (trimSpace l).length = 0 || startsWith [35] (trimSpace l) then
      (firstBad rest).map (· + 1)
    else
      match (Load NewMatcher (trimSpace l)).2 with
      | some _ => some 1
      | none => (firstBad rest).map (· + 1)

theorem loadLines_firstBad (ls : List (List Nat)) :
    ∀ m c,
      (firstBad ls = none → ∃ m', loadLines m c ls = .ok m') ∧
      (∀ j, firstBad ls = some j → ∃ e, loadLines m c ls = .error (.lineErr (c + j) e)) := by
  induction ls with
  | nil =>
    intro m c
    refine ⟨fun _ => ⟨m, rfl⟩, fun j hj => ?_⟩
    simp [firstBad] at hj
  | cons l rest ih =>
    intro m c
    by_cases hskip : ((trimSpace l).length = 0 || startsWith [35] (trimSpace l)) = true
    · have hfb : firstBad (l :: rest) = (firstBad rest).map (· + 1) := by
        rw [firstBad, if_pos hskip]
      have hll : loadLines m c (l :: rest) = loadLines m (c + 1) rest := by
        rw [loadLines, if_pos hskip]
      refine ⟨fun hnone => ?_, fun j hj => ?_⟩
      · rw [hfb, Option.map_eq_none'] at hnone
        rw [hll]
        exact (ih m (c + 1)).1 hnone
      · rw [hfb] at hj
        rcases Option.map_eq_some'.mp hj with ⟨j', hj', rfl⟩
        rw [hll]
        rcases (ih m (c + 1)).2 j' hj' with ⟨e, he⟩
        refine ⟨e, ?_⟩
        rw [he]
        have hidx : c + 1 + j' = c + (j' + 1) := by omega
        rw [hidx]
    · cases hLo : Load m (trimSpace l) with
      | mk m' e? =>
        have hsnd : (Load NewMatcher (trimSpace l)).2 = e? := by
          rw [load_snd_indep NewMatcher m (trimSpace l), hLo]
        cases e? with
        | none =>
          have hfb : firstBad (l :: rest) = (firstBad rest).map (· + 1) := by
            rw [firstBad, if_neg hskip, hsnd]
          have hll : loadLines m c (l :: rest) = loadLines m' (c + 1) rest := by
            rw [loadLines, if_neg hskip, hLo]
          refine ⟨fun hnone => ?_, fun j hj => ?_⟩
          · rw [hfb, Option.map_eq_none'] at hnone
            rw [hll]
            exact (ih m' (c + 1)).1 hnone
          · rw [hfb] at hj
            rcases Option.map_eq_some'.mp hj with ⟨j', hj', rfl⟩
            rw [hll]
            rcases (ih m' (c + 1)).2 j' hj' with ⟨e, he⟩
            refine ⟨e, ?_⟩
            rw [he]
            have hidx : c + 1 + j' = c + (j' + 1) := by omega
            rw [hidx]
        | some e =>
          have hfb : firstBad (l :: rest) = some 1 := by
            rw [firstBad, if_neg hskip, hsnd]
          have hll : loadLines m c (l :: rest) = .error (.lineErr (c + 1) e) := by
            rw [loadLines, if_neg hskip, hLo]
          refine ⟨fun hnone => ?_, fun j hj => ?_⟩
          · rw [hfb] at hnone
            exact absurd hnone (by simp)
          · rw [hfb, Option.some.injEq] at hj
            exact ⟨e, by rw [hll, ← hj]⟩

/-- C3 (amended): on every input whose physical lines all fit the
scanner's 64 KiB buffer (the `scanLines` flag is false), `ParseTextMacFile`
succeeds exactly when every line is blank, a comment (first non-space byte
`#` after trimming), or a well-formed address; otherwise it fails with an
error carrying the 1-based physical line number of the first malformed
non-blank/non-comment line (`firstBad`, which counts every physical line
including skipped ones); blank and comment lines are skipped outright (they
only advance the line counter); and concretely the batch
`"# comment\n\n00:11:22:33:44:55\n"` yields a matcher of length 1 while
`"00:11:22:33:44\n"` fails reporting line 1. -/
theorem parseTextMacFile_spec (input : List Nat) (hok : (scanLines input).2 = false) :
    (firstBad (splitLines input) = none → ∃ m, ParseTextMacFile input = .ok m) ∧
    (∀ j, firstBad (splitLines input) = some j →
      ∃ e, ParseTextMacFile input = .error (.lineErr j e)) ∧
    (∀ m c l rest, ((trimSpace l).length = 0 || startsWith [35] (trimSpace l)) = true →
      loadLines m c (l :: rest) = loadLines m (c + 1) rest) ∧
    (∃ m, ParseTextMacFile scenario1 = .ok m ∧ m.Len = 1) ∧
    (∃ e, ParseTextMacFile scenario2 = .error (.lineErr 1 e)) := by
  refine ⟨?_, ?_, ?_, ?_, ?_⟩
  · intro hnone
    rcases (loadLines_firstBad (splitLines input) NewMatcher 0).1 hnone with ⟨m', hm'⟩
    refine ⟨m', ?_⟩
    unfold ParseTextMacFile LoadFromTextReader
    rw [hm', hok]
    rfl
  · intro j hj
    rcases (loadLines_firstBad (splitLines input) NewMatcher 0).2 j hj with ⟨e, he⟩
    rw [Nat.zero_add] at he
    refine ⟨e, ?_⟩
    unfold ParseTextMacFile LoadFromTextReader
    rw [he]
  · intro m c l rest hskip
    rw [loadLines, if_pos hskip]
  · exact ⟨⟨[[0, 17, 34, 51, 68, 85]]⟩, by rfl, by rfl⟩
  · exact ⟨.invalidFormat [48, 48, 58, 49, 49, 58, 50, 50, 58, 51, 51, 58, 52, 52], by rfl⟩

/-- Witness for C3: `scenario1` fits the scanner's buffer, its `firstBad`
characterization reports no bad line, and parsing indeed succeeds. -/
theorem parseTextMacFile_spec_witness :
    (scanLines scenario1).2 = false ∧
    firstBad (splitLines scenario1) = none ∧
    (∃ m, ParseTextMacFile scenario1 = .ok m) := by
  refine ⟨by decide, by decide, ?_⟩
  exact (parseTextMacFile_spec scenario1 (by decide)).1 (by decide)

/-- A single physical line of `maxScanTokenSize` (65536) space bytes with
no LF: blank by the claim's reading, but too long for the scanner's
buffer. -/
def longBlankLine : List Nat := List.replicate maxScanTokenSize 32

theorem scanLinesAux_spaces (k : Nat) :
    ∀ cur, scanLinesAux cur (List.replicate k 32) =
      scanLinesAux (cur ++ List.replicate k 32) [] := by
  induction k with
  | zero => intro cur; simp
  | succ n ih =>
    intro cur
    rw [List.replicate_succ]
    have h1 : scanLinesAux cur (32 :: List.replicate n 32) =
        scanLinesAux (cur ++ [32]) (List.replicate n 32) := rfl
    rw [h1, ih (cur ++ [32]), List.append_assoc, List.singleton_append]

/-- Counterexample to C3 as stated: `longBlankLine` consists of space bytes
only, so every physical line of this input is blank and the claim asserts
the parse ignores them all and succeeds; yet `ParseTextMacFile` fails, and
with `bufio.ErrTooLong` rather than any line-numbered parse error, because
the 65536-byte line overflows the scanner's 64 KiB buffer
(`bufio.MaxScanTokenSize`). -/
theorem parseTextMacFile_toolong_cex :
    (∀ b ∈ longBlankLine, b = 32) ∧
    isSpace 32 = true ∧
    ParseTextMacFile longBlankLine = .error .scanTooLong := by
  have hlen : maxScanTokenSize ≤ (List.replicate maxScanTokenSize 32).length := by
    simp [List.length_replicate]
  have hscan : scanLines longBlankLine = ([], true) := by
    unfold scanLines longBlankLine
    rw [scanLinesAux_spaces maxScanTokenSize [], List.nil_append, scanLinesAux, if_pos hlen]
  have h1 : splitLines longBlankLine = [] := by
    rw [splitLines, hscan]
  refine ⟨?_, by decide, ?_⟩
  · intro b hb
    exact List.eq_of_mem_replicate hb
  · rw [ParseTextMacFile, LoadFromTextReader, h1, hscan]
    rfl

/-! ### C6: matching is case-insensitive because parsing normalizes case -/

/-- ASCII lower-casing of one byte (uppercase letters 65–90 map down by 32). -/
def lowerByte (b : Nat) : Nat := if 65 ≤ b ∧ b ≤ 90 then b + 32 else b

theorem hexVal_lowerByte (b : Nat) : hexVal (lowerByte b) = hexVal b := by
  unfold lowerByte hexVal
  split_ifs <;> first | rfl | omega

theorem lowerByte_eq_low {b d : Nat} (hd : d < 65) : lowerByte b = d ↔ b = d := by
  unfold lowerByte
  split_ifs with h
  · omega
  · exact Iff.rfl

theorem hexPair_lowerByte (b0 b1 : Nat) :
    hexPair (lowerByte b0) (lowerByte b1) = hexPair b0 b1 := by
  unfold hexPair
  rw [hexVal_lowerByte, hexVal_lowerByte]

theorem xtoi2_map_lowerByte (l : List Nat) (e : Nat) (he : e < 65) :
    xtoi2 (l.map lowerByte) e = xtoi2 l e := by
  match l with
  | [] => rfl
  | [b0] => rfl
  | [b0, b1] =>
    simp only [List.map_cons, List.map_nil, xtoi2]
    exact hexPair_lowerByte b0 b1
  | b0 :: b1 :: b2 :: t =>
    simp only [List.map_cons, xtoi2]
    by_cases h2 : b2 = e
    · rw [if_pos ((lowerByte_eq_low he).mpr h2), if_pos h2]
      exact hexPair_lowerByte b0 b1
    · rw [if_neg (fun hc => h2 ((lowerByte_eq_low he).mp hc)), if_neg h2]

theorem parseGroups_map_lowerByte (s : List Nat) (e : Nat) (he : e < 65) :
    ∀ n x, parseGroups (s.map lowerByte) e n x = parseGroups s e n x := by
  intro n
  induction n with
  | zero => intro x; rfl
  | succ k ih =>
    intro x
    simp only [parseGroups, ← List.map_drop, xtoi2_map_lowerByte _ e he, ih]

theorem parseDotGroups_map_lowerByte (s : List Nat) :
    ∀ n x, parseDotGroups (s.map lowerByte) n x = parseDotGroups s n x := by
  intro n
  induction n with
  | zero => intro x; rfl
  | succ k ih =>
    intro x
    simp only [parseDotGroups, ← List.map_drop, ← List.map_take,
      xtoi2_map_lowerByte _ 0 (by omega), xtoi2_map_lowerByte _ 46 (by omega), ih]

theorem get?_map_lowerByte_eq (s : List Nat) (i d : Nat) (hd : d < 65) :
    (s.map lowerByte).get? i = some d ↔ s.get? i = some d := by
  rw [List.get?_map]
  cases s.get? i with
  | none => simp
  | some b => simp [lowerByte_eq_low hd]

theorem parseMAC_map_lowerByte (s : List Nat) :
    parseMAC (s.map lowerByte) = parseMAC s := by
  unfold parseMAC
  rw [List.length_map]
  by_cases hlen : s.length < 14
  · rw [if_pos hlen, if_pos hlen]
  · rw [if_neg hlen, if_neg hlen]
    by_cases h58 : s.get? 2 = some 58
    · have h58' : (s.map lowerByte).get? 2 = some 58 :=
        (get?_map_lowerByte_eq s 2 58 (by omega)).mpr h58
      rw [if_pos (Or.inl h58'), if_pos (Or.inl h58)]
      rw [h58', h58]
      by_cases hm : (s.length + 1) % 3 ≠ 0
      · rw [if_pos hm, if_pos hm]
      · rw [if_neg hm, if_neg hm]
        simp only [Option.getD_some]
        by_cases hn : (s.length + 1) / 3 = 6 ∨ (s.length + 1) / 3 = 8 ∨ (s.length + 1) / 3 = 20
        · rw [if_pos hn, if_pos hn, parseGroups_map_lowerByte s 58 (by omega)]
        · rw [if_neg hn, if_neg hn]
    · by_cases h45 : s.get? 2 = some 45
      · have h45' : (s.map lowerByte).get? 2 = some 45 :=
          (get?_map_lowerByte_eq s 2 45 (by omega)).mpr h45
        rw [if_pos (Or.inr h45'), if_pos (Or.inr h45)]
        rw [h45', h45]
        by_cases hm : (s.length + 1) % 3 ≠ 0
        · rw [if_pos hm, if_pos hm]
        · rw [if_neg hm, if_neg hm]
          simp only [Option.getD_some]
          by_cases hn : (s.length + 1) / 3 = 6 ∨ (s.length + 1) / 3 = 8 ∨ (s.length + 1) / 3 = 20
          · rw [if_pos hn, if_pos hn, parseGroups_map_lowerByte s 45 (by omega)]
          · rw [if_neg hn, if_neg hn]
      · have hno : ¬((s.map lowerByte).get? 2 = some 58 ∨ (s.map lowerByte).get? 2 = some 45) := by
          rintro (hc | hc)
          · exact h58 ((get?_map_lowerByte_eq s 2 58 (by omega)).mp hc)
          · exact h45 ((get?_map_lowerByte_eq s 2 45 (by omega)).mp hc)
        have hno' : ¬(s.get? 2 = some 58 ∨ s.get? 2 = some 45) := by
          rintro (hc | hc)
          · exact h58 hc
          · exact h45 hc
        rw [if_neg hno, if_neg hno']
        by_cases h46 : s.get? 4 = some 46
        · have h46' : (s.map lowerByte).get? 4 = some 46 :=
            (get?_map_lowerByte_eq s 4 46 (by omega)).mpr h46
          rw [if_pos h46', if_pos h46]
          by_cases hm : (s.length + 1) % 5 ≠ 0
          · rw [if_pos hm, if_pos hm]
          · rw [if_neg hm, if_neg hm]
            by_cases hn : 2 * ((s.length + 1) / 5) = 6 ∨ 2 * ((s.length + 1) / 5) = 8 ∨
                2 * ((s.length + 1) / 5) = 20
            · rw [if_pos hn, if_pos hn, parseDotGroups_map_lowerByte s]
            · rw [if_neg hn, if_neg hn]
        · have h46' : ¬(s.map lowerByte).get? 4 = some 46 :=
            fun hc => h46 ((get?_map_lowerByte_eq s 4 46 (by omega)).mp hc)
          rw [if_neg h46', if_neg h46]

/-- C6: when two literals are case variants of each other (equal after
byte-wise ASCII lower-casing) and `Add` of the first succeeds, the matcher
matches the value parsed from the other variant: normalization happens at
parse/insert time, so the stored key and the queried key coincide whatever
letter case either literal used. -/
theorem matcher_add_case_insensitive (m : Matcher) (L L' a : List Nat)
    (hvar : L.map lowerByte = L'.map lowerByte)
    (hp : parseMAC L' = some a)
    (hok : (m.Add L).2 = none) :
    (m.Add L).1.Match a = true := by
  have hpL : parseMAC L = some a := by
    rw [← parseMAC_map_lowerByte L, hvar, parseMAC_map_lowerByte L', hp]
  have hlen : a.length = 6 := by
    by_contra hne
    have : (m.Add L).2 = some (.wrongLength a.length) := by
      simp [Matcher.Add, hpL, hne]
    rw [this] at hok
    exact Option.some_ne_none _ hok
  have hAdd : (m.Add L).1 = m.add a := by
    simp [Matcher.Add, hpL, hlen]
  rw [hAdd]
  unfold Matcher.Match Matcher.add
  rw [if_pos hlen]
  by_cases hc : m.macs.contains a
  · rw [if_pos hc]
    exact hc
  · rw [if_neg hc]
    simp

/-- Witness for C6: `"AA:BB:CC:DD:EE:FF"` added, the value parsed from the
lowercase variant `"aa:bb:cc:dd:ee:ff"` matches. -/
theorem matcher_add_case_insensitive_witness :
    upperLit.map lowerByte = lowerLit.map lowerByte ∧
    parseMAC lowerLit = some [170, 187, 204, 221, 238, 255] ∧
    (NewMatcher.Add upperLit).2 = none ∧
    (NewMatcher.Add upperLit).1.Match [170, 187, 204, 221, 238, 255] = true :=
  ⟨by decide, by decide, by decide,
    matcher_add_case_insensitive NewMatcher upperLit lowerLit
      [170, 187, 204, 221, 238, 255] (by decide) (by decide) (by decide)⟩

/-! ### C1: error paths of BatchLoadMacProvider and listener cleanup -/

theorem blmpAux_state_grows (dm : DataManager) (entries : List (List Nat)) :
    ∀ sm dyns cls st nid,
      ∃ added, (blmpAux dm entries sm dyns cls st nid).2 = added ++ st := by
  induction entries with
  | nil => intro sm dyns cls st nid; exact ⟨[], rfl⟩
  | cons a rest ih =>
    intro sm dyns cls st nid
    by_cases hp : startsWith providerKey a = true
    · cases hgp : dm.GetDataProvider (a.drop 9) with
      | none =>
        refine ⟨[], ?_⟩
        simp only [blmpAux, hp, if_true, hgp]
        rfl
      | some bytes =>
        cases hla : LoadAndAddListener (a.drop 9) bytes nid (NewDynamicMatcher ParseTextMacFile) st with
        | mk r st' =>
          have hst' : ∃ added0, st' = added0 ++ st := by
            unfold LoadAndAddListener at hla
            cases hup : (NewDynamicMatcher ParseTextMacFile).Update bytes with
            | mk d' e? =>
              rw [hup] at hla
              cases e? with
              | some e =>
                refine ⟨[], ?_⟩
                have := congrArg Prod.snd hla
                simpa using this.symm
              | none =>
                refine ⟨[(a.drop 9, nid)], ?_⟩
                have := congrArg Prod.snd hla
                simpa using this.symm
          cases r with
          | error e =>
            rcases hst' with ⟨added0, rfl⟩
            refine ⟨added0, ?_⟩
            simp only [blmpAux, hp, if_true, hgp, hla]
          | ok d' =>
            rcases hst' with ⟨added0, rfl⟩
            rcases ih sm (dyns ++ [d']) (cls ++ [.deleteListener (a.drop 9) nid])
              (added0 ++ st) (nid + 1) with ⟨added1, hadd1⟩
            refine ⟨added1 ++ added0, ?_⟩
            simp only [blmpAux, hp, if_true, hgp, hla, hadd1, List.append_assoc]
    · cases hLo : Load sm a with
      | mk sm' e? =>
        cases e? with
        | none =>
          rcases ih sm' dyns cls st nid with ⟨added, hadd⟩
          refine ⟨added, ?_⟩
          simp only [blmpAux, hp, Bool.false_eq_true, if_false, hLo, hadd]
        | some e =>
          refine ⟨[], ?_⟩
          simp only [blmpAux, hp, Bool.false_eq_true, if_false, hLo]
          rfl

/-- C1 (amended): whenever `BatchLoadMacProvider` fails — a referenced
source name does not exist, an initial provider load fails, or a literal
fails to load — it returns the error and no group, but it does NOT run the
closers accumulated so far: listeners registered during that same failed
construction stay registered (the registration state after the call is the
pre-call state plus whatever registrations the call added, with nothing
deregistered), and the caller, holding no group, cannot deregister them. -/
theorem batchLoadMacProvider_error_keeps_registrations
    (e : List (List Nat)) (dm : DataManager) (st : RegState)
    (_h : isErr (BatchLoadMacProvider e dm st).1 = true) :
    ∃ added, (BatchLoadMacProvider e dm st).2 = added ++ st :=
  blmpAux_state_grows dm e NewMatcher [] [] st 0

/-- Bytes of the provider tag `"p1"`. -/
def tagP1 : List Nat := [112, 49]

/-- A data manager with a single provider `"p1"` whose current data is the
empty byte string (which parses to an empty matcher). -/
def dmC : DataManager := ⟨[(tagP1, [])]⟩

/-- The descriptor list `["provider:p1", "provider:p2"]`: the first entry
resolves and registers a listener, the second names a missing provider. -/
def eC : List (List Nat) := [providerKey ++ [112, 49], providerKey ++ [112, 50]]

/-- Counterexample to C1 as stated: on `eC` against `dmC` (no listener
registered beforehand) the construction fails — the second descriptor names
a provider that does not exist after the first has already registered a
listener — yet the registration state after the call is not empty: the
listener registered for `"p1"` (listener id 0) is left dangling instead of
being deregistered before the error returns. -/
theorem batchLoadMacProvider_cleanup_cex :
    isErr (BatchLoadMacProvider eC dmC []).1 = true ∧
    (BatchLoadMacProvider eC dmC []).2 = [(tagP1, 0)] ∧
    (BatchLoadMacProvider eC dmC []).2 ≠ [] := by
  refine ⟨by decide, by decide, by decide⟩

/-- Witness for the amended C1 at the concrete failing construction `eC`. -/
theorem batchLoadMacProvider_error_keeps_registrations_witness :
    isErr (BatchLoadMacProvider eC dmC []).1 = true ∧
    ∃ added, (BatchLoadMacProvider eC dmC []).2 = added ++ [] :=
  ⟨by decide, batchLoadMacProvider_error_keeps_registrations eC dmC [] (by decide)⟩
